import Mathlib

/-!
Shallow embedding of the sqlite-mt-tests program (src/main.rs): a CLI that
inserts randomly generated names into a single SQLite table using N
concurrent worker tasks, plus select-all and delete-all subcommands.
-/

namespace SqliteMt

universe u

/-- Rust iterator combinator `step_by(n)` applied to a materialized list:
yields the elements at indices 0, n, 2n, … of `l`.  The Rust panic on
`step_by(0)` is modelled by `stepByChecked`. -/
def stepBy {α : Type u} : List α → Nat → List α
  | [], _ => []
  | x :: xs, n => x :: stepBy (xs.drop (n - 1)) n
termination_by l _ => l.length
decreasing_by
  simp only [List.length_drop, List.length_cons]
  omega

/-- `step_by(n)`, including the Rust panic on `n = 0`, modelled as `none`. -/
def stepByChecked {α : Type u} (l : List α) (n : Nat) : Option (List α) :=
  if n = 0 then none else some (stepBy l n)

/-- Sequences a list of possibly-panicking computations: the result is
`none` as soon as one entry is `none`. -/
def collectOption {β : Type u} : List (Option β) → Option (List β)
  | [] => some []
  | o :: rest => do
    let b ← o
    let bs ← collectOption rest
    some (b :: bs)

/-- The partition construction of run_insertion (src/main.rs lines 181-190):
for each offset in 0..n_workers, take
users.iter().cloned().skip(offset).step_by(n_workers), and collect. -/
def stridePartition {α : Type u} (l : List α) (n : Nat) : Option (List (List α)) :=
  collectOption ((List.range n).map (fun offset => stepByChecked (l.drop offset) n))

/-- The pure value of stridePartition for n ≥ 1, where no panic can occur. -/
def strideParts {α : Type u} (l : List α) (n : Nat) : List (List α) :=
  (List.range n).map (fun offset => stepBy (l.drop offset) n)

/-- rusqlite error kinds relevant to this program. -/
inductive DbError
  | constraintViolation
  | storageError
deriving DecidableEq

/-- State of the users table: rows (rowid, name), with schema
users(id INTEGER PRIMARY KEY, name TEXT NOT NULL UNIQUE). -/
structure UsersTable where
  rows : List (Nat × String)
deriving DecidableEq

/-- SQLite rowid allocation for an INTEGER PRIMARY KEY column with no
explicit value: one larger than the largest id in use. -/
def nextRowId (t : UsersTable) : Nat :=
  t.rows.foldl (fun m r => max m r.1) 0 + 1

/-- DB::insert (src/main.rs lines 60-70): executes
INSERT INTO users (name) VALUES (?1).  By the SQLite semantics of the
UNIQUE constraint on name, the statement fails and changes nothing when the
name is already present, and otherwise appends one row with a fresh id. -/
def insertUser (t : UsersTable) (name : String) : UsersTable × Except DbError Unit :=
  if name ∈ t.rows.map Prod.snd then
    (t, Except.error DbError.constraintViolation)
  else
    (⟨t.rows ++ [(nextRowId t, name)]⟩, Except.ok ())

/-- What DB::create_table prints. -/
inductive SchemaReport
  | created
  | alreadyExists
deriving DecidableEq

/-- Value returned by conn.execute for CREATE TABLE IF NOT EXISTS in
rusqlite: sqlite3_changes(), the rows-changed counter, which DDL statements
never update.  The program calls create_table on a freshly opened
connection, where the counter is 0 whether or not the table exists. -/
def executeCreateTableChanges (_tableExists : Bool) : Nat := 0

/-- DB::create_table (src/main.rs lines 36-58): runs CREATE TABLE IF NOT
EXISTS and prints "Table created" when the returned rows-changed count is
positive, otherwise "Table exists".  Returns (whether the table exists
afterwards, the report printed). -/
def create_table (tableExists : Bool) : Bool × SchemaReport :=
  if executeCreateTableChanges tableExists > 0 then (true, SchemaReport.created)
  else (true, SchemaReport.alreadyExists)

/-- The charset of the rand crate Alphanumeric distribution: A-Z, a-z, 0-9. -/
def ALPHANUMERIC : List Char :=
  "ABCDEFGHIJKLMNOPQRSTUVWXYZabcdefghijklmnopqrstuvwxyz0123456789".toList

/-- generate_name (src/main.rs lines 137-143): samples 15 characters from
Alphanumeric and collects them into a string; the random source is modelled
as a stream of indices into the 62-character charset. -/
def generate_name (rng : Nat → Fin 62) : String :=
  ⟨(List.range 15).map (fun i => ALPHANUMERIC.getD (rng i).val 'A')⟩

/-- create_users (src/main.rs lines 130-135): `(0..10_000)` mapped through
generate_name, one independent random stream per call. -/
def create_users (rng : Nat → Nat → Fin 62) : List String :=
  (List.range 10000).map (fun i => generate_name (rng i))

/-- The three CLI subcommands. -/
inductive CliCommand
  | insert
  | select
  | delete
deriving DecidableEq

/-- const N_WORKERS (src/main.rs line 7). -/
def N_WORKERS : Nat := 4

/-- Observable steps of one invocation of main. -/
structure MainTrace where
  datasetSize : Nat
  workersUsed : Option Nat
  selectCalled : Bool
  deleteCalled : Bool

/-- main (src/main.rs lines 146-172): create_users() runs unconditionally
before the match on the subcommand; Insert dispatches run_insertion with
cli.workers.unwrap_or(N_WORKERS) workers, while Select and Delete each make
a single direct call on the database handle. -/
def mainSteps (rng : Nat → Nat → Fin 62) (cmd : CliCommand) (cliWorkers : Option Nat) :
    MainTrace :=
  let names := create_users rng
  match cmd with
  | CliCommand.insert => ⟨names.length, some (cliWorkers.getD N_WORKERS), false, false⟩
  | CliCommand.select => ⟨names.length, none, true, false⟩
  | CliCommand.delete => ⟨names.length, none, false, true⟩

/-- What one worker did: the items it attempted in order, the items whose
insert succeeded (and were logged), and the value the task returned. -/
structure BatchResult (α : Type u) where
  attempted : List α
  logged : List α
  result : Except DbError Unit

/-- batch_insertion (src/main.rs lines 207-219): iterates its users, calls
insert on each, prints on Ok, ignores Err, and finally returns Ok(()).
insertOk gives the outcome of each individual insert call. -/
def batch_insertion {α : Type u} (insertOk : α → Bool) (users : List α) : BatchResult α :=
  let fin := users.foldl
    (fun st user => (st.1 ++ [user], if insertOk user then st.2 ++ [user] else st.2))
    ([], [])
  ⟨fin.1, fin.2, Except.ok ()⟩

/-- Outcome of awaiting one worker handle: the task completed and returned
Ok, the join itself failed (the task panicked or was cancelled), or the
task completed returning Err. -/
inductive TaskOutcome
  | ok
  | taskFault (msg : String)
  | innerError (e : DbError)
deriving DecidableEq

/-- Error surfaced by the dispatcher join loop. -/
inductive JoinedError
  | fault (msg : String)
  | inner (e : DbError)
deriving DecidableEq

/-- The join loop of run_insertion (src/main.rs lines 200-204):
`for handle in handles { handle.await?? }` — returns how many handles were
awaited together with the propagated result. -/
def joinLoop : List TaskOutcome → Nat × Except JoinedError Unit
  | [] => (0, Except.ok ())
  | TaskOutcome.ok :: rest =>
    let r := joinLoop rest
    (r.1 + 1, r.2)
  | TaskOutcome.taskFault m :: _ => (1, Except.error (JoinedError.fault m))
  | TaskOutcome.innerError e :: _ => (1, Except.error (JoinedError.inner e))

/-- Sequential composition of the worker return values, in spawn order. -/
def joinResults {α : Type u} (results : List (BatchResult α)) : Except DbError Unit :=
  results.foldl
    (fun acc r =>
      match acc with
      | Except.error e => Except.error e
      | Except.ok _ => r.result)
    (Except.ok ())

/-- run_insertion (src/main.rs lines 174-205), without task-level faults:
builds the stride partitions, runs one batch_insertion per worker in
1..=n_workers on partition worker - 1, then joins the results.  A `none`
value models a panic. -/
def run_insertion {α : Type u} (insertOk : α → Bool) (users : List α) (n_workers : Nat) :
    Option (List (List α) × List (BatchResult α) × Except DbError Unit) := do
  let batch_users ← stridePartition users n_workers
  let results := (List.range' 1 n_workers).map
    (fun worker => batch_insertion insertOk (batch_users.getD (worker - 1) []))
  some (batch_users, results, joinResults results)

theorem stepBy_nil {α : Type u} (n : Nat) : stepBy ([] : List α) n = [] := by
  simp [stepBy]

theorem stepBy_cons {α : Type u} (x : α) (xs : List α) (n : Nat) :
    stepBy (x :: xs) n = x :: stepBy (xs.drop (n - 1)) n := by
  rw [stepBy]

theorem stepBy_getElem? {α : Type u} (m : Nat) :
    ∀ (j : Nat) (l : List α), (stepBy l (m + 1))[j]? = l[j * (m + 1)]? := by
  intro j
  induction j with
  | zero =>
    intro l
    cases l with
    | nil => simp [stepBy_nil]
    | cons x xs => simp [stepBy_cons]
  | succ j ih =>
    intro l
    cases l with
    | nil => simp [stepBy_nil]
    | cons x xs =>
      rw [stepBy_cons]
      have h1 : (x :: stepBy (xs.drop (m + 1 - 1)) (m + 1))[j + 1]? =
          (stepBy (xs.drop m) (m + 1))[j]? := by
        simp
      rw [h1, ih (xs.drop m), List.getElem?_drop]
      have h2 : (j + 1) * (m + 1) = (m + j * (m + 1)) + 1 := by ring
      rw [h2, List.getElem?_cons_succ]

theorem strideParts_flatten_perm {α : Type u} (m : Nat) (l : List α) :
    (strideParts l (m + 1)).flatten.Perm l := by
  induction l with
  | nil => simp [strideParts, stepBy_nil]
  | cons x xs ih =>
    have key : strideParts (x :: xs) (m + 1) =
        (x :: stepBy (xs.drop m) (m + 1)) ::
          (List.range m).map (fun o => stepBy (xs.drop o) (m + 1)) := by
      simp only [strideParts, List.range_succ_eq_map, List.map_cons, List.map_map,
        List.drop_zero, Function.comp]
      rw [stepBy_cons]
      simp [List.drop_succ_cons]
    have hsplit : strideParts xs (m + 1) =
        (List.range m).map (fun o => stepBy (xs.drop o) (m + 1))
          ++ [stepBy (xs.drop m) (m + 1)] := by
      have hr : List.range (m + 1) = List.range m ++ [m] := by
        rw [← Nat.succ_eq_add_one, List.range_succ]
      simp only [strideParts, hr, List.map_append, List.map_cons, List.map_nil]
    have ih2 : ((((List.range m).map (fun o => stepBy (xs.drop o) (m + 1))).flatten
        ++ stepBy (xs.drop m) (m + 1))).Perm xs := by
      rw [hsplit] at ih
      simpa using ih
    rw [key]
    simp only [List.flatten_cons, List.cons_append]
    exact List.Perm.cons x ((List.perm_append_comm).trans ih2)

theorem strideParts_getD {α : Type u} (l : List α) (m i : Nat) (hi : i < m + 1) :
    (strideParts l (m + 1)).getD i [] = stepBy (l.drop i) (m + 1) := by
  simp [strideParts, List.getD, List.getElem?_map, List.getElem?_range hi]

theorem collectOption_map_some {α : Type v} {β : Type u} (g : α → β) :
    ∀ l : List α, collectOption (l.map (fun a => some (g a))) = some (l.map g) := by
  intro l
  induction l with
  | nil => rfl
  | cons a l ih => simp [collectOption, ih]

theorem stridePartition_eq_some {α : Type u} (l : List α) (m : Nat) :
    stridePartition l (m + 1) = some (strideParts l (m + 1)) := by
  have h : (List.range (m + 1)).map (fun offset => stepByChecked (l.drop offset) (m + 1)) =
      (List.range (m + 1)).map (fun offset => some (stepBy (l.drop offset) (m + 1))) := by
    simp [stepByChecked]
  rw [stridePartition, h]
  exact collectOption_map_some (fun offset => stepBy (l.drop offset) (m + 1)) (List.range (m + 1))

/-- C1: for every n ≥ 1 the stride partitions built by run_insertion are a
true partition of the dataset: the construction succeeds, there are n
partitions, their concatenation is a permutation of the dataset, partition
i lists exactly the dataset elements at positions i, i + n, i + 2n, … in
their original order, and on a duplicate-free dataset the partitions are
pairwise disjoint. -/
theorem run_insertion_stride_partition_exact {α : Type u} (l : List α) (n : Nat)
    (hn : 1 ≤ n) :
    ∃ parts, stridePartition l n = some parts ∧
      parts.length = n ∧
      parts.flatten.Perm l ∧
      (∀ i, i < n → ∀ j, (parts.getD i [])[j]? = l[i + j * n]?) ∧
      (l.Nodup → parts.Pairwise List.Disjoint) := by
  obtain ⟨m, rfl⟩ : ∃ m, n = m + 1 := ⟨n - 1, by omega⟩
  refine ⟨strideParts l (m + 1), stridePartition_eq_some l m, ?_, ?_, ?_, ?_⟩
  · simp [strideParts]
  · exact strideParts_flatten_perm m l
  · intro i hi j
    rw [strideParts_getD l m i hi, stepBy_getElem? m j, List.getElem?_drop]
  · intro hnd
    have hflat : (strideParts l (m + 1)).flatten.Nodup :=
      (strideParts_flatten_perm m l).symm.nodup hnd
    exact (List.nodup_flatten.mp hflat).2

/-- Witness for C1: the dataset [10, 20, 30, 40, 50] split across 2 workers. -/
theorem run_insertion_stride_partition_exact_witness :
    1 ≤ 2 ∧
      ∃ parts, stridePartition [10, 20, 30, 40, 50] 2 = some parts ∧
        parts.length = 2 ∧
        parts.flatten.Perm [10, 20, 30, 40, 50] ∧
        (∀ i, i < 2 → ∀ j, (parts.getD i [])[j]? = [10, 20, 30, 40, 50][i + j * 2]?) ∧
        ([10, 20, 30, 40, 50].Nodup → parts.Pairwise List.Disjoint) :=
  ⟨by decide, run_insertion_stride_partition_exact [10, 20, 30, 40, 50] 2 (by decide)⟩

theorem batch_insertion_foldl_fst {α : Type u} (insertOk : α → Bool) :
    ∀ (users : List α) (a b : List α),
      (users.foldl
        (fun st user => (st.1 ++ [user], if insertOk user then st.2 ++ [user] else st.2))
        (a, b)).1 = a ++ users := by
  intro users
  induction users with
  | nil => intro a b; simp
  | cons x xs ih =>
    intro a b
    simp only [List.foldl_cons]
    exact (ih (a ++ [x]) (if insertOk x then b ++ [x] else b)).trans (by simp)

/-- C2: a failed insert never halts a worker: batch_insertion attempts every
item of its partition in order and returns Ok whatever the per-item insert
outcomes were, so no per-item failure reaches the dispatcher. -/
theorem batch_insertion_never_fails {α : Type u} (insertOk : α → Bool) (users : List α) :
    (batch_insertion insertOk users).attempted = users ∧
    (batch_insertion insertOk users).result = Except.ok () := by
  constructor
  · simpa using batch_insertion_foldl_fst insertOk users [] []
  · rfl

/-- C3 counterexample: with two workers where the first task faults, the
join loop of run_insertion surfaces the fault after awaiting only one of
the two handles, so not every task is joined before the error is returned. -/
theorem run_insertion_join_counterexample :
    (joinLoop [TaskOutcome.taskFault "worker panicked", TaskOutcome.ok]).2 =
      Except.error (JoinedError.fault "worker panicked") ∧
    (joinLoop [TaskOutcome.taskFault "worker panicked", TaskOutcome.ok]).1 = 1 ∧
    [TaskOutcome.taskFault "worker panicked", TaskOutcome.ok].length = 2 :=
  ⟨rfl, rfl, rfl⟩

/-- C3 amended: the dispatcher awaits handles in spawn order and surfaces
the first abnormal termination immediately: when every earlier task
completed normally, run_insertion returns the fault having awaited only
the tasks up to and including the faulting one, and a fault-free prefix is
awaited in full with an Ok result. -/
theorem run_insertion_join_first_fault (pre post : List TaskOutcome) (m : String)
    (hpre : ∀ o ∈ pre, o = TaskOutcome.ok) :
    ((joinLoop pre).1 = pre.length ∧ (joinLoop pre).2 = Except.ok ()) ∧
    ((joinLoop (pre ++ TaskOutcome.taskFault m :: post)).1 = pre.length + 1 ∧
      (joinLoop (pre ++ TaskOutcome.taskFault m :: post)).2 =
        Except.error (JoinedError.fault m)) := by
  induction pre with
  | nil => simp [joinLoop]
  | cons o rest ih =>
    have ho : o = TaskOutcome.ok := hpre o (by simp)
    subst ho
    have hrest : ∀ o ∈ rest, o = TaskOutcome.ok := fun o hmem => hpre o (by simp [hmem])
    obtain ⟨⟨h1, h2⟩, h3, h4⟩ := ih hrest
    refine ⟨⟨?_, ?_⟩, ?_, ?_⟩ <;> simp [joinLoop, h1, h2, h3, h4]

/-- Witness for C3 amended: first worker ok, second faults, the third is
never joined. -/
theorem run_insertion_join_first_fault_witness :
    (∀ o ∈ [TaskOutcome.ok], o = TaskOutcome.ok) ∧
      (((joinLoop [TaskOutcome.ok]).1 = [TaskOutcome.ok].length ∧
          (joinLoop [TaskOutcome.ok]).2 = Except.ok ()) ∧
        ((joinLoop ([TaskOutcome.ok] ++ TaskOutcome.taskFault "boom" :: [TaskOutcome.ok])).1 =
            [TaskOutcome.ok].length + 1 ∧
          (joinLoop ([TaskOutcome.ok] ++ TaskOutcome.taskFault "boom" :: [TaskOutcome.ok])).2 =
            Except.error (JoinedError.fault "boom"))) :=
  ⟨by decide,
    run_insertion_join_first_fault [TaskOutcome.ok] [TaskOutcome.ok] "boom" (by decide)⟩

theorem mainSteps_datasetSize (rng : Nat → Nat → Fin 62) (cmd : CliCommand)
    (w : Option Nat) : (mainSteps rng cmd w).datasetSize = 10000 := by
  cases cmd <;> simp [mainSteps, create_users]

/-- C4 counterexample: on the Select and Delete subcommands main still
generates the full 10000-name dataset, because create_users() runs before
the match on the subcommand; dataset generation is not skipped. -/
theorem main_select_generates_dataset :
    (mainSteps (fun _ _ => 0) CliCommand.select none).datasetSize = 10000 ∧
    (mainSteps (fun _ _ => 0) CliCommand.delete none).datasetSize = 10000 :=
  ⟨mainSteps_datasetSize _ _ _, mainSteps_datasetSize _ _ _⟩

/-- C4 amended: the dataset is generated once per invocation for every
subcommand, not only for Insert — create_users() runs before the
subcommand match — while only the partition/dispatch step is conditional:
it runs exactly for Insert, and Select and Delete each make their single
direct call against the database handle. -/
theorem main_dataset_always_generated (rng : Nat → Nat → Fin 62) (cmd : CliCommand)
    (w : Option Nat) :
    (mainSteps rng cmd w).datasetSize = 10000 ∧
    ((mainSteps rng cmd w).workersUsed ≠ none ↔ cmd = CliCommand.insert) ∧
    ((mainSteps rng cmd w).selectCalled = true ↔ cmd = CliCommand.select) ∧
    ((mainSteps rng cmd w).deleteCalled = true ↔ cmd = CliCommand.delete) := by
  refine ⟨mainSteps_datasetSize rng cmd w, ?_, ?_, ?_⟩ <;> cases cmd <;> simp [mainSteps]

/-- C5 (code bug): create_table always reports that the table already
exists, also on a fresh database, because conn.execute returns a
rows-changed count of 0 for CREATE TABLE IF NOT EXISTS; the table does
exist afterwards in both cases, so the call is idempotent but the
already-existed report is wrong on a fresh database. -/
theorem create_table_always_reports_exists :
    (create_table false).2 = SchemaReport.alreadyExists ∧
    (create_table true).2 = SchemaReport.alreadyExists ∧
    (create_table false).1 = true ∧ (create_table true).1 = true :=
  ⟨rfl, rfl, rfl, rfl⟩

/-- C6: inserts preserve the uniqueness of names: inserting a name that is
already present fails with the constraint error and leaves the table
unchanged, every insert preserves the no-duplicate-names invariant, and
inserting the same name twice leaves exactly one row carrying that name,
with the second insert failing. -/
theorem insertUser_unique (t : UsersTable) (name : String)
    (hu : (t.rows.map Prod.snd).Nodup) :
    (name ∈ t.rows.map Prod.snd →
      insertUser t name = (t, Except.error DbError.constraintViolation)) ∧
    ((insertUser t name).1.rows.map Prod.snd).Nodup ∧
    (((insertUser (insertUser t name).1 name).1.rows.map Prod.snd).count name = 1 ∧
      (insertUser (insertUser t name).1 name).2 =
        Except.error DbError.constraintViolation) := by
  by_cases hmem : name ∈ t.rows.map Prod.snd
  · have he : insertUser t name = (t, Except.error DbError.constraintViolation) := by
      simp [insertUser, hmem]
    refine ⟨fun _ => he, ?_, ?_, ?_⟩
    · rw [he]
      exact hu
    · simp only [he]
      exact List.count_eq_one_of_mem hu hmem
    · simp only [he]
  · have he : insertUser t name =
        (⟨t.rows ++ [(nextRowId t, name)]⟩, Except.ok ()) := by
      simp [insertUser, hmem]
    have hmem2 : name ∈
        ((⟨t.rows ++ [(nextRowId t, name)]⟩ : UsersTable)).rows.map Prod.snd := by
      simp
    have he2 : insertUser (⟨t.rows ++ [(nextRowId t, name)]⟩ : UsersTable) name =
        ((⟨t.rows ++ [(nextRowId t, name)]⟩ : UsersTable),
          Except.error DbError.constraintViolation) := by
      simp [insertUser]
    refine ⟨fun hc => absurd hc hmem, ?_, ?_, ?_⟩
    · rw [he]
      simp [List.nodup_append, hu, hmem]
    · simp only [he, he2]
      simp [List.count_append, List.count_eq_zero.mpr hmem]
    · simp only [he, he2]

/-- Witness for C6: a table holding alice, then inserting bob twice. -/
theorem insertUser_unique_witness :
    ((UsersTable.mk [(1, "alice")]).rows.map Prod.snd).Nodup ∧
      (("bob" ∈ (UsersTable.mk [(1, "alice")]).rows.map Prod.snd →
          insertUser (UsersTable.mk [(1, "alice")]) "bob" =
            (UsersTable.mk [(1, "alice")], Except.error DbError.constraintViolation)) ∧
        ((insertUser (UsersTable.mk [(1, "alice")]) "bob").1.rows.map Prod.snd).Nodup ∧
        (((insertUser (insertUser (UsersTable.mk [(1, "alice")]) "bob").1 "bob").1.rows.map
            Prod.snd).count "bob" = 1 ∧
          (insertUser (insertUser (UsersTable.mk [(1, "alice")]) "bob").1 "bob").2 =
            Except.error DbError.constraintViolation)) :=
  ⟨by decide, insertUser_unique (UsersTable.mk [(1, "alice")]) "bob" (by decide)⟩

/-- C7: for every state of the random source generate_name returns a string
of exactly 15 characters, each drawn from the alphanumeric charset. -/
theorem generate_name_shape (rng : Nat → Fin 62) :
    (generate_name rng).length = 15 ∧
    ∀ c ∈ (generate_name rng).data, c ∈ ALPHANUMERIC := by
  constructor
  · simp [generate_name, String.length]
  · intro c hc
    have hc2 : c ∈ (List.range 15).map (fun i => ALPHANUMERIC.getD (rng i).val 'A') := hc
    simp only [List.mem_map, List.mem_range] at hc2
    obtain ⟨i, _, rfl⟩ := hc2
    have hlt : ((rng i).val : Nat) < ALPHANUMERIC.length := by
      have h62 : ALPHANUMERIC.length = 62 := rfl
      rw [h62]
      exact (rng i).isLt
    rw [List.getD_eq_getElem ALPHANUMERIC 'A' hlt]
    exact List.getElem_mem hlt

/-- C8: create_users always yields exactly 10000 generated names, and the
dataset main materializes before dispatching any worker on the Insert
subcommand has exactly that size. -/
theorem create_users_size (rng : Nat → Nat → Fin 62) (w : Option Nat) :
    (create_users rng).length = 10000 ∧
    (mainSteps rng CliCommand.insert w).datasetSize = 10000 := by
  constructor <;> simp [create_users, mainSteps]

/-- C9: the worker count used by the insert subcommand: an absent --workers
option resolves to the default N_WORKERS = 4 and an explicit --workers k
resolves to exactly k. -/
theorem insert_worker_count (rng : Nat → Nat → Fin 62) :
    (mainSteps rng CliCommand.insert none).workersUsed = some 4 ∧
    ∀ k : Nat, (mainSteps rng CliCommand.insert (some k)).workersUsed = some k := by
  constructor
  · simp [mainSteps, N_WORKERS]
  · intro k
    simp [mainSteps]

/-- C10: run_insertion with zero workers does not panic (the step_by(0)
closure is never evaluated because the offset range is empty): it builds
zero partitions, runs zero workers, inserts nothing and returns Ok; and
--workers 0 reaches it unchanged through main. -/
theorem run_insertion_zero_workers {α : Type u} (insertOk : α → Bool) (users : List α)
    (rng : Nat → Nat → Fin 62) :
    run_insertion insertOk users 0 = some ([], [], Except.ok ()) ∧
    (mainSteps rng CliCommand.insert (some 0)).workersUsed = some 0 := by
  constructor
  · rfl
  · simp [mainSteps]

end SqliteMt
